import Mathlib

/-!
# Shallow embedding of `megatron/model/transformer.py` (gpt-neox fork)

This file embeds the forward data flow of `ParallelAttention`,
`ParallelTransformerLayer` and `ParallelTransformerLayerPipe` from
`src/megatron/model/transformer.py` and proves the spec claims about them.

Modelling conventions:
* A tensor axis that every relevant operation treats pointwise (the batch
  axis `b` and the per-partition head axis `np`) is elided; a tensor
  `[s, b, np, hn]` is modelled as a sequence of head vectors `QMat`
  (one `QVec` of rationals per sequence position).
* Machine floats are modelled as rationals.
* External capabilities (the `mpu` partitioned linear layers, the fused
  scale-mask-softmax, dropout, the sparse attention kernel, the
  normalization layers) are abstract function parameters bundled in
  `Ext` records, mirroring the spec's "external collaborators" boundary.
* Code of this repository that the claims depend on but that is not under
  `src/` (rotary application, AliBi bias, fused bias-dropout-add,
  `mpu.split_tensor_along_last_dim`) is modelled from the spec; each such
  definition carries a doc comment starting with `Modelled from the spec:`.
-/

set_option autoImplicit false

namespace GPTNeoX

/-- A head vector: the last (`hn`) axis of a tensor, rational entries. -/
abbrev QVec := List ℚ

/-- A sequence of head vectors: axes `[s, hn]` with `b`/`np` elided.
Also used for score matrices `[sq, sk]`. -/
abbrev QMat := List QVec

/-- Numeric precision tags (`neox_args.precision` / tensor dtypes). -/
inductive DType where
  | fp16
  | bf16
  | fp32
deriving DecidableEq, Repr

/-- A tensor carrying its numeric type, as needed by the KV-cache
`type_as` upcast in `ParallelAttention.forward`. -/
structure Tensor where
  dtype : DType
  data : QMat
deriving DecidableEq, Repr

/-- `t.type_as(other)`: cast `t` to the numeric type of `other`
(values are preserved; rationals model all float types exactly). -/
def type_as (t other : Tensor) : Tensor :=
  { dtype := other.dtype, data := t.data }

/-- `torch.cat((a, b), dim=0)`: concatenate along the sequence axis;
requires (and keeps) the first operand's dtype. -/
def cat0 (a b : Tensor) : Tensor :=
  { dtype := a.dtype, data := a.data ++ b.data }

/-- Pointwise vector addition, padding the shorter vector with zeros. -/
def vecAdd (a b : QVec) : QVec :=
  List.zipWithAll (fun x y => x.getD 0 + y.getD 0) a b

/-- Pointwise matrix addition (elementwise over rows). -/
def matAdd (a b : QMat) : QMat :=
  List.zipWith vecAdd a b

/-- Scalar multiplication of every entry of a matrix. -/
def matSmul (c : ℚ) (m : QMat) : QMat :=
  m.map (fun row => row.map (fun x => c * x))

/-- Scale a vector by a coefficient. -/
def scaleVec (c : ℚ) (v : QVec) : QVec :=
  v.map (fun x => c * x)

/-- Dot product of two vectors (`zipWith` truncates to the shared length). -/
def dot (a b : QVec) : ℚ :=
  (List.zipWith (· * ·) a b).sum

/-- Modelled from the spec: `mpu.split_tensor_along_last_dim` (not under
`src/`) — "split into three equal parts along the last dimension" /
"split into two parts": partition the last axis into `num` equal chunks. -/
def split_tensor_along_last_dim (num : ℕ) (v : QVec) : List QVec :=
  let chunk := v.length / num
  (List.range num).map (fun i => (v.drop (i * chunk)).take chunk)

/-- The `i`-th of the `num` equal last-dimension chunks of `v`. -/
def chunkOf (num i : ℕ) (v : QVec) : QVec :=
  (split_tensor_along_last_dim num v).getD i []

/-- Modelled from the spec: `rotate_half` from
`megatron.model.positional_embeddings` (not under `src/`) — the rotary
encoding "rotates subspaces of query/key vectors": the two halves of the
vector are swapped with the second half negated. -/
def rotate_half (v : QVec) : QVec :=
  let half := v.length / 2
  (v.drop half).map (fun x => -x) ++ v.take half

/-- Modelled from the spec: one position's rotary rotation
`x * cos[p] + rotate_half(x) * sin[p]` using the cos/sin table rows `cs`,
`sn` for that absolute position; output length equals input length. -/
def rot_step (cs sn v : QVec) : QVec :=
  (List.range v.length).map
    (fun j => v.getD j 0 * cs.getD j 0 + (rotate_half v).getD j 0 * sn.getD j 0)

/-- Modelled from the spec: `apply_rotary_pos_emb` (not under `src/`) —
rotates token `i` of `x` "using precomputed cos/sin tables indexed by
absolute position", where the absolute position is `offset + i` ("accepts a
position offset (the cached-prefix length) so a single new token's rotation
uses its true absolute position"). -/
def apply_rotary_pos_emb (x : QMat) (cos sin : ℕ → QVec) (offset : ℕ) : QMat :=
  match x with
  | [] => []
  | v :: rest => rot_step (cos offset) (sin offset) v ::
      apply_rotary_pos_emb rest cos sin (offset + 1)

namespace ParallelAttention

/-- Static configuration of one `ParallelAttention` module, the
`neox_args`-derived fields read by `__init__` and `forward`. -/
structure Cfg where
  is_cross_attention : Bool
  use_cache : Bool
  rotary : Bool
  rotary_pct : ℚ
  head_dim : ℕ
  params_dtype : DType
  pos_emb : String
  apply_query_key_layer_scaling : Bool
  layer_number : ℕ
  sparse : Bool
deriving DecidableEq, Repr

/-- External capabilities consumed by the attention module: the `mpu`
partitioned projections, the `RotaryEmbedding` table builder (given the
required `seq_len` it yields position-indexed cos/sin table rows),
`sqrt(head-dim)` (an external `math.sqrt` value), the
relative-position-embedding callable, the AliBi bias table, the fused
scale-mask-softmax, dropout and the sparse attention kernel. All are
outside `src/` and kept abstract. -/
structure Ext where
  qkvProj : QVec → QVec
  kvProj : QVec → QVec
  qProj : QVec → QVec
  dense : QMat → QMat × QVec
  rotary_emb : ℕ → (ℕ → QVec) × (ℕ → QVec)
  sqrtHeadDim : ℚ
  rpe : Option (ℕ → ℕ → QMat)
  alibiBias : ℕ → ℕ → QMat
  scale_mask_softmax : Option ℕ → QMat → Option QMat → QMat
  attention_dropout : QMat → QMat
  sparse_attn : QMat → QMat → QMat → Option QMat → Option QMat → QMat

/-- `__init__`: `self.rotary_ndims` — `None` for full rotation
(`rotary_pct == 1`), else `int(head_dim * rotary_pct)` leading dimensions
(the enclosing `assert rotary_pct < 1` restricts the intended domain). -/
def rotary_ndims (head_dim : ℕ) (rotary_pct : ℚ) : Option ℕ :=
  if rotary_pct = 1 then none
  else some (Int.toNat ⌊(head_dim : ℚ) * rotary_pct⌋)

/-- `__init__`: `coeff` — `max(1, layer_number)` when query/key-layer
scaling is enabled, else `None`. -/
def coeff (cfg : Cfg) : Option ℕ :=
  if cfg.apply_query_key_layer_scaling then some (max 1 cfg.layer_number)
  else none

/-- `__init__`: `self.norm_factor = math.sqrt(head_dim)`, then multiplied
by `coeff` when query/key-layer scaling is enabled. `sqrtHeadDim` stands
for the external `math.sqrt(head_dim)` value. -/
def norm_factor (sqrtHeadDim : ℚ) (cfg : Cfg) : ℚ :=
  match coeff cfg with
  | some c => sqrtHeadDim * (c : ℚ)
  | none => sqrtHeadDim

/-- `__init__`: the `scale` argument handed to `FusedScaleMaskSoftmax`
is exactly `coeff`. -/
def softmax_scale (cfg : Cfg) : Option ℕ :=
  coeff cfg

/-- `layer_past.numel()`: total number of elements of the stacked
past-key/past-value tensor. -/
def pastNumel (p : Tensor × Tensor) : ℕ :=
  (p.1.data.map List.length).sum + (p.2.data.map List.length).sum

/-- `forward` lines 504-507: the rotary `offset` — `layer_past[0].shape[0]`
(the cached prefix length) when a non-empty `layer_past` exists, else 0. -/
def rotary_offset (layer_past : Option (Tensor × Tensor)) : ℕ :=
  match layer_past with
  | some p => if 0 < pastNumel p then p.1.data.length else 0
  | none => 0

/-- `forward` lines 503-507: `seq_len = key_layer.shape[0]`, incremented by
`offset` when a non-empty `layer_past` exists — the length the cos/sin
tables are computed for. -/
def rotary_seq_len (key_layer : QMat) (layer_past : Option (Tensor × Tensor)) : ℕ :=
  key_layer.length + rotary_offset layer_past

/-- `forward` lines 486-518: the rotary section. For partial rotary
(`rotary_ndims = some r`) only the leading `r` dimensions of query and key
are rotated and the pass-through remainder is concatenated back
(`torch.cat(..., dim=-1)`); for full rotary the whole vectors are rotated.
Disabled layers pass query/key through unchanged. -/
def rotary_section (cfg : Cfg) (ext : Ext) (query_layer key_layer : QMat)
    (layer_past : Option (Tensor × Tensor)) : QMat × QMat :=
  if cfg.rotary then
    let offset := rotary_offset layer_past
    let tabs := ext.rotary_emb (rotary_seq_len key_layer layer_past)
    match rotary_ndims cfg.head_dim cfg.rotary_pct with
    | some r =>
        let query_rot := query_layer.map (fun v => v.take r)
        let query_pass := query_layer.map (fun v => v.drop r)
        let key_rot := key_layer.map (fun v => v.take r)
        let key_pass := key_layer.map (fun v => v.drop r)
        let q := apply_rotary_pos_emb query_rot tabs.1 tabs.2 offset
        let k := apply_rotary_pos_emb key_rot tabs.1 tabs.2 offset
        (List.zipWith (· ++ ·) q query_pass, List.zipWith (· ++ ·) k key_pass)
    | none =>
        (apply_rotary_pos_emb query_layer tabs.1 tabs.2 offset,
         apply_rotary_pos_emb key_layer tabs.1 tabs.2 offset)
  else (query_layer, key_layer)

/-- `forward` lines 524-529: merge the cache — when a non-empty
`layer_past` exists, the cached key/value are cast to the new tensors'
numeric type (`type_as`) and concatenated *before* the new key/value along
the sequence axis (`dim=0`). -/
def cache_concat (layer_past : Option (Tensor × Tensor)) (key_layer value_layer : Tensor) :
    Tensor × Tensor :=
  match layer_past with
  | some p =>
      if 0 < pastNumel p then
        (cat0 (type_as p.1 key_layer) key_layer,
         cat0 (type_as p.2 value_layer) value_layer)
      else (key_layer, value_layer)
  | none => (key_layer, value_layer)

/-- `attention` lines 328-360: raw attention scores — `baddbmm` with
`alpha = 1 / norm_factor`, i.e. entry `(i, j)` is
`(1 / norm_factor) * dot(q_i, k_j)`. -/
def raw_attention_scores (nf : ℚ) (query_layer key_layer : QMat) : QMat :=
  query_layer.map (fun qi => key_layer.map (fun kj => (1 / nf) * dot qi kj))

/-- `attention` lines 366-370: in use-cache mode the attention mask is
sliced down to `[.., :sq, :sk]`. -/
def mask_slice (mask : Option QMat) (sq sk : ℕ) : Option QMat :=
  mask.map (fun m => (m.take sq).map (fun row => row.take sk))

/-- `attention` lines 376-381: the additive positional-bias stage — the
relative-position-embedding bias is added when the `rpe` callable exists,
then the AliBi bias is added when `pos_emb == "alibi"` (the AliBi module
itself lives outside `src/`; the spec describes it as an additive
head-specific distance bias, modelled by `ext.alibiBias`). -/
def biased_attention_scores (cfg : Cfg) (ext : Ext) (scores : QMat) (sq sk : ℕ) : QMat :=
  let scores :=
    match ext.rpe with
    | some f => matAdd scores (f sq sk)
    | none => scores
  if cfg.pos_emb = "alibi" then matAdd scores (ext.alibiBias sq sk) else scores

/-- Weighted sum of the value vectors by one row of attention
probabilities: one row of `torch.bmm(attention_probs, value_layer)`. -/
def weightedSum (coeffs : QVec) (values : QMat) : QVec :=
  (List.zipWith scaleVec coeffs values).foldr vecAdd []

/-- `attention` lines 396-421: context layer `probs @ value`. -/
def context_of (probs : QMat) (value_layer : QMat) : QMat :=
  probs.map (fun row => weightedSum row value_layer)

/-- `ParallelAttention.attention` (lines 320-422): raw scores, inference
mask slicing, positional bias, fused scale-mask-softmax (handed the
configured `softmax_scale`), attention dropout, and the value aggregate. -/
def attention (cfg : Cfg) (ext : Ext) (query_layer key_layer value_layer : QMat)
    (attention_mask : Option QMat) : QMat :=
  let attention_scores :=
    raw_attention_scores (norm_factor ext.sqrtHeadDim cfg) query_layer key_layer
  let attention_mask :=
    if cfg.use_cache then mask_slice attention_mask query_layer.length key_layer.length
    else attention_mask
  let attention_scores :=
    biased_attention_scores cfg ext attention_scores query_layer.length key_layer.length
  let attention_probs := ext.scale_mask_softmax (softmax_scale cfg) attention_scores attention_mask
  let attention_probs := ext.attention_dropout attention_probs
  context_of attention_probs value_layer

/-- `ParallelAttention.sparse_attention` (lines 424-440): reshape is a
layout change (elided), the boolean mask is scaled to `-10000`, the
optional rpe bias is computed, and the external sparse kernel is invoked
(it owns softmax and dropout internally). -/
def sparse_attention (ext : Ext) (query_layer key_layer value_layer : QMat)
    (attention_mask : Option QMat) : QMat :=
  let attn_mask := attention_mask.map (fun m => m.map (fun row => row.map (fun x => x * (-10000))))
  let rpeBias := ext.rpe.map (fun f => f query_layer.length key_layer.length)
  ext.sparse_attn query_layer key_layer value_layer attn_mask rpeBias

/-- Failure modes of `ParallelAttention.forward`. Modelled from the spec:
"calling cross-attention mode without supplying encoder hidden states is a
contract violation (assertion failure), not a recoverable runtime
condition" — the fatal error raised when the key/value projection is
invoked on absent encoder states. -/
inductive AttnError where
  | missingEncoderStates
deriving DecidableEq, Repr

/-- The first component of `ParallelAttention.forward`'s return value:
a bare output tensor, or (in use-cache mode) the two-element list
`[output, present]`. -/
inductive AttnOutput where
  | plain (out : QMat)
  | withPresent (out : QMat) (present : Tensor × Tensor)
deriving DecidableEq, Repr

/-- The output tensor held by either return shape. -/
def AttnOutput.outSeq : AttnOutput → QMat
  | .plain o => o
  | .withPresent o _ => o

/-- `forward` lines 450-484: the query/key/value section. Self-attention
projects `hidden_states` through the fused `query_key_value` linear
(3x hidden) and splits it into three equal last-dimension parts;
cross-attention projects key and value jointly from the encoder hidden
states (2x hidden, split into two parts) and the query from the decoder
hidden state, failing fatally when the encoder states are absent. -/
def qkv_section (cfg : Cfg) (ext : Ext) (hidden_states : QMat)
    (encoder_hidden_states : Option QMat) :
    Except AttnError (QMat × QMat × QMat) :=
  if cfg.is_cross_attention then
    match encoder_hidden_states with
    | none => .error .missingEncoderStates
    | some enc =>
        let mixed_kv_layer := enc.map ext.kvProj
        let key_layer := mixed_kv_layer.map (chunkOf 2 0)
        let value_layer := mixed_kv_layer.map (chunkOf 2 1)
        let query_layer := hidden_states.map ext.qProj
        .ok (query_layer, key_layer, value_layer)
  else
    let mixed_x_layer := hidden_states.map ext.qkvProj
    .ok (mixed_x_layer.map (chunkOf 3 0),
         mixed_x_layer.map (chunkOf 3 1),
         mixed_x_layer.map (chunkOf 3 2))

/-- `__init__` line 237: the cross-attention `key_value` projection is
built with output size `2 * hidden_size`. -/
def key_value_output_size (hidden_size : ℕ) : ℕ :=
  2 * hidden_size

/-- `forward` lines 486-561 after the q/k/v section: rotary application,
cache merge, `present` stacking, dense/sparse dispatch, the output
projection, and the use-cache-dependent return shape. -/
def attn_core (cfg : Cfg) (ext : Ext) (query_layer keyData valueData : QMat)
    (attention_mask : Option QMat) (layer_past : Option (Tensor × Tensor)) :
    AttnOutput × QVec :=
  let qk := rotary_section cfg ext query_layer keyData layer_past
  let kv := cache_concat layer_past
      { dtype := cfg.params_dtype, data := qk.2 }
      { dtype := cfg.params_dtype, data := valueData }
  let context_layer :=
    if cfg.sparse then sparse_attention ext qk.1 kv.1.data kv.2.data attention_mask
    else attention cfg ext qk.1 kv.1.data kv.2.data attention_mask
  let outBias := ext.dense context_layer
  if cfg.use_cache then (.withPresent outBias.1 kv, outBias.2)
  else (.plain outBias.1, outBias.2)

/-- `ParallelAttention.forward` (lines 442-561). -/
def forward (cfg : Cfg) (ext : Ext) (hidden_states : QMat)
    (attention_mask : Option QMat) (encoder_hidden_states : Option QMat)
    (layer_past : Option (Tensor × Tensor)) :
    Except AttnError (AttnOutput × QVec) :=
  match qkv_section cfg ext hidden_states encoder_hidden_states with
  | .error e => .error e
  | .ok qkv => .ok (attn_core cfg ext qkv.1 qkv.2.1 qkv.2.2 attention_mask layer_past)

/-- The value of `forward` on the (total) self-attention path: the fused
query/key/value projection split into three equal parts, then the shared
tail `attn_core`. -/
def self_forward (cfg : Cfg) (ext : Ext) (hidden_states : QMat)
    (attention_mask : Option QMat) (layer_past : Option (Tensor × Tensor)) :
    AttnOutput × QVec :=
  attn_core cfg ext
    ((hidden_states.map ext.qkvProj).map (chunkOf 3 0))
    ((hidden_states.map ext.qkvProj).map (chunkOf 3 1))
    ((hidden_states.map ext.qkvProj).map (chunkOf 3 2))
    attention_mask layer_past

/-- The value of `forward` on the cross-attention path when encoder hidden
states are supplied: query from the decoder hidden state, key/value from
the joint encoder projection split into two parts, then `attn_core`. -/
def cross_forward (cfg : Cfg) (ext : Ext) (hidden_states enc : QMat)
    (attention_mask : Option QMat) (layer_past : Option (Tensor × Tensor)) :
    AttnOutput × QVec :=
  attn_core cfg ext
    (hidden_states.map ext.qProj)
    ((enc.map ext.kvProj).map (chunkOf 2 0))
    ((enc.map ext.kvProj).map (chunkOf 2 1))
    attention_mask layer_past

end ParallelAttention

/-- Modelled from the spec: `megatron.model.fused_bias_dropout` (not under
`src/`) — the fused bias-dropout-add step, in inference mode (dropout is
the identity when not training): `out = x + bias`, plus the residual when
one is given. -/
def bias_dropout_add (x bias : QMat) (residual : Option QMat) : QMat :=
  match residual with
  | some r => matAdd r (matAdd x bias)
  | none => matAdd x bias

/-- `bias.expand_as(like)`: broadcast a bias vector over every sequence
position of `like`. -/
def expand_bias (b : QVec) (like : QMat) : QMat :=
  like.map (fun _ => b)

/-- The model architecture variant (`neox_args.model_arch`). -/
inductive ModelArch where
  | t5
  | other
deriving DecidableEq, Repr

/-- The layer's role in the architecture (`layer_type`). -/
inductive LayerType where
  | encoder
  | decoder
deriving DecidableEq, Repr

namespace ParallelTransformerLayer

/-- Static configuration of one `ParallelTransformerLayer`. -/
structure Cfg where
  attnCfg : ParallelAttention.Cfg
  gpt_j_residual : Bool
  use_cache : Bool
  layer_type : LayerType
  model_arch : ModelArch
deriving Repr

/-- `__init__` line 620: `self.do_crossattn` — the layer owns a
cross-attention sublayer exactly when it is a decoder layer of a T5
architecture. -/
def do_crossattn (cfg : Cfg) : Bool :=
  cfg.layer_type = LayerType.decoder && cfg.model_arch = ModelArch.t5

/-- `__init__` lines 604-614: the self-attention submodule configuration
(`is_cross_attention` defaults to false, `use_cache` is the layer's). -/
def selfAttnCfg (cfg : Cfg) : ParallelAttention.Cfg :=
  { cfg.attnCfg with is_cross_attention := false, use_cache := cfg.use_cache }

/-- `__init__` lines 622-633: the cross-attention submodule configuration
(`is_cross_attention := true`, `use_cache` is the layer's). -/
def crossAttnCfg (cfg : Cfg) : ParallelAttention.Cfg :=
  { cfg.attnCfg with is_cross_attention := true, use_cache := cfg.use_cache }

/-- External capabilities of the layer: the three normalization instances,
the MLP (its internal `mpu` linears are external), the model-parallel
reduce used by the GPT-J residual path, and the externals of the two
attention submodules. -/
structure Ext where
  input_layernorm : QMat → QMat
  post_attention_layernorm : QMat → QMat
  post_cross_attention_layernorm : QMat → QMat
  mlp : QMat → QMat × QVec
  reduce : QMat → QMat
  attnExt : ParallelAttention.Ext
  crossExt : ParallelAttention.Ext

/-- Failure modes of the layer forward: a propagated attention error, or
the unpacking of an attention result whose shape does not match the
use-cache flag. -/
inductive LayerError where
  | attn (e : ParallelAttention.AttnError)
  | cacheUnpack
deriving DecidableEq, Repr

/-- `forward` lines 684-686 / 744-746: under `use_cache` the attention
result is unpacked as `[output, present]` and `present` becomes the new
`self.layer_past`; otherwise the result is the bare output tensor and the
stored cache is left untouched. -/
def unpack_attn (use_cache : Bool) (o : ParallelAttention.AttnOutput)
    (stored : Option (Tensor × Tensor)) :
    Except LayerError (QMat × Option (Tensor × Tensor)) :=
  if use_cache then
    match o with
    | .withPresent out p => .ok (out, some p)
    | .plain _ => .error .cacheUnpack
  else
    match o with
    | .plain out => .ok (out, stored)
    | .withPresent _ _ => .error .cacheUnpack

/-- `ParallelTransformerLayer.forward` (lines 659-790). The mutable
`self.layer_past` attribute is made explicit: it enters as
`self_layer_past` and the updated value is returned alongside the output.
Line 667 resolves the effective `layer_past` from the argument, falling
back to the stored one. -/
def forward (cfg : Cfg) (ext : Ext) (x : QMat) (attention_mask : Option QMat)
    (encoder_hidden_states : Option QMat) (encoder_attention_mask : Option QMat)
    (layer_past_arg : Option (Tensor × Tensor))
    (self_layer_past : Option (Tensor × Tensor)) :
    Except LayerError (QMat × Option (Tensor × Tensor)) :=
  let layer_past :=
    match layer_past_arg with
    | some p => some p
    | none => self_layer_past
  if cfg.gpt_j_residual then
    -- x = x + attn(ln1(x)) + [crossattn(ln1.5(x)) +] mlp(ln2(x)),
    -- with a single all-reduce after the sum (lines 670-731)
    let residual := x
    match ParallelAttention.forward (selfAttnCfg cfg) ext.attnExt
        (ext.input_layernorm x) attention_mask none layer_past with
    | .error e => .error (.attn e)
    | .ok att =>
      match unpack_attn cfg.use_cache att.1 self_layer_past with
      | .error e => .error e
      | .ok unp =>
        let attention_output :=
          bias_dropout_add unp.1 (expand_bias att.2 unp.1) none
        if do_crossattn cfg then
          match ParallelAttention.forward (crossAttnCfg cfg) ext.crossExt
              (ext.post_attention_layernorm x) encoder_attention_mask
              encoder_hidden_states layer_past with
          | .error e => .error (.attn e)
          | .ok catt =>
            match unpack_attn cfg.use_cache catt.1 unp.2 with
            | .error e => .error e
            | .ok cunp =>
              let cross_attention_output :=
                bias_dropout_add cunp.1 (expand_bias catt.2 cunp.1)
                  (some attention_output)
              let mlpOut := ext.mlp (ext.post_cross_attention_layernorm x)
              let output :=
                bias_dropout_add mlpOut.1 (expand_bias mlpOut.2 mlpOut.1)
                  (some cross_attention_output)
              .ok (matAdd residual (ext.reduce output), cunp.2)
        else
          let mlpOut := ext.mlp (ext.post_attention_layernorm x)
          let output :=
            bias_dropout_add mlpOut.1 (expand_bias mlpOut.2 mlpOut.1)
              (some attention_output)
          .ok (matAdd residual (ext.reduce output), unp.2)
  else
    -- sequential residuals (lines 732-790)
    let residual := x
    match ParallelAttention.forward (selfAttnCfg cfg) ext.attnExt
        (ext.input_layernorm x) attention_mask none layer_past with
    | .error e => .error (.attn e)
    | .ok att =>
      match unpack_attn cfg.use_cache att.1 self_layer_past with
      | .error e => .error e
      | .ok unp =>
        let attention_output :=
          bias_dropout_add unp.1 (expand_bias att.2 residual) (some residual)
        if do_crossattn cfg then
          match ParallelAttention.forward (crossAttnCfg cfg) ext.crossExt
              (ext.post_attention_layernorm attention_output)
              encoder_attention_mask encoder_hidden_states layer_past with
          | .error e => .error (.attn e)
          | .ok catt =>
            match unpack_attn cfg.use_cache catt.1 unp.2 with
            | .error e => .error e
            | .ok cunp =>
              let cross_attention_output :=
                bias_dropout_add cunp.1 (expand_bias catt.2 attention_output)
                  (some attention_output)
              let mlpOut := ext.mlp
                (ext.post_cross_attention_layernorm cross_attention_output)
              let output :=
                bias_dropout_add mlpOut.1 (expand_bias mlpOut.2 cross_attention_output)
                  (some cross_attention_output)
              .ok (output, cunp.2)
        else
          let mlpOut := ext.mlp (ext.post_attention_layernorm attention_output)
          let output :=
            bias_dropout_add mlpOut.1 (expand_bias mlpOut.2 attention_output)
              (some attention_output)
          .ok (output, unp.2)

end ParallelTransformerLayer

namespace ParallelTransformerLayerPipe

/-- The tuple arity each architecture variant expects (the `assert len(args)`
guards of `ParallelTransformerLayerPipe.forward`, lines 796-838). -/
def expected_args : ModelArch → LayerType → ℕ
  | .t5, .encoder => 5
  | .t5, .decoder => 4
  | .other, _ => 2

/-- `ParallelTransformerLayerPipe.forward` (lines 796-838), parameterized
over the pipelined tensor type `T` and over `superForward`, the delegated
`ParallelTransformerLayer.forward` call
`(hidden, mask, encoder_hidden_states, encoder_attention_mask)`.
`sizeMismatch`/`refit` stand for the encoder branch's
`decoder_input_ids.size()[0] != hidden_states.size()[1]` check and the
`view` reshape workaround. A tuple of the wrong arity is a fatal assertion
error; a matching tuple is unpacked, delegated and repacked with the mask
tensors passed through unchanged. -/
def forward {T : Type} (arch : ModelArch) (layer_type : LayerType)
    (superForward : T → T → Option T → Option T → T)
    (sizeMismatch : T → T → Bool) (refit : T → T → T)
    (args : List T) : Except String (List T) :=
  match arch with
  | .t5 =>
    match layer_type with
    | .encoder =>
      match args with
      | [hidden_states, decoder_input_ids, decoder_position_ids,
         encoder_attention_mask, attention_mask] =>
        let fixed :=
          if sizeMismatch decoder_input_ids hidden_states then
            (refit decoder_input_ids hidden_states,
             refit decoder_position_ids hidden_states)
          else (decoder_input_ids, decoder_position_ids)
        .ok [superForward hidden_states encoder_attention_mask none none,
             fixed.1, fixed.2, encoder_attention_mask, attention_mask]
      | _ => .error "Encoder layer expects 5 arguments"
    | .decoder =>
      match args with
      | [hidden_states, encoder_hidden_states, encoder_attention_mask,
         decoder_attention_mask] =>
        .ok [superForward hidden_states decoder_attention_mask
              (some encoder_hidden_states) (some encoder_attention_mask),
             encoder_hidden_states, encoder_attention_mask, decoder_attention_mask]
      | _ => .error "T5 Decoder layer expects 4 arguments"
  | .other =>
    match args with
    | [hidden_states, attention_mask] =>
      .ok [superForward hidden_states attention_mask none none, attention_mask]
    | _ => .error "ParallelTransformerLayerPipe expects 2 arguments"

end ParallelTransformerLayerPipe

/-- Modelled from the spec: "a layer is configured with exactly one
[positional strategy]; rotary and alibi/relative-bias are mutually
exclusive by construction" — the exclusivity enforced by the surrounding
configuration machinery, which is not under `src/`. -/
def validPosConfig (cfg : ParallelAttention.Cfg) (ext : ParallelAttention.Ext) : Prop :=
  (cfg.rotary = true → cfg.pos_emb ≠ "alibi" ∧ ext.rpe = none) ∧
  ¬(cfg.pos_emb = "alibi" ∧ (ext.rpe).isSome = true)

/-! ## Concrete specimens used by witnesses and counterexamples -/

/-- A concrete attention configuration for witnesses: a one-dimensional
head, no rotary, no alibi, dense path, no scaling, no cache. -/
def wCfg : ParallelAttention.Cfg where
  is_cross_attention := false
  use_cache := false
  rotary := false
  rotary_pct := 1
  head_dim := 1
  params_dtype := .fp32
  pos_emb := "learned"
  apply_query_key_layer_scaling := false
  layer_number := 0
  sparse := false

/-- Concrete externals for witnesses: identity projections, identity
softmax and dropout, zero dense bias, unit norm factor. -/
def wExt : ParallelAttention.Ext where
  qkvProj := id
  kvProj := id
  qProj := id
  dense := fun m => (m, [0])
  rotary_emb := fun _ => (fun _ => [1, 1], fun _ => [0, 0])
  sqrtHeadDim := 1
  rpe := none
  alibiBias := fun _ _ => []
  scale_mask_softmax := fun _ s _ => s
  attention_dropout := id
  sparse_attn := fun q _ _ _ _ => q

/-- A concrete layer configuration for witnesses: decoder-only
architecture, sequential residuals, no cache. -/
def wLayerCfg : ParallelTransformerLayer.Cfg where
  attnCfg := wCfg
  gpt_j_residual := false
  use_cache := false
  layer_type := .decoder
  model_arch := .other

/-- Concrete layer externals for witnesses: identity norms and reduce,
identity-with-zero-bias MLP, the specimen attention externals. -/
def wLayerExt : ParallelTransformerLayer.Ext where
  input_layernorm := id
  post_attention_layernorm := id
  post_cross_attention_layernorm := id
  mlp := fun m => (m, [0])
  reduce := id
  attnExt := wExt
  crossExt := wExt

/-! ## Supporting lemmas -/

theorem rot_step_length (cs sn v : QVec) : (rot_step cs sn v).length = v.length := by
  simp [rot_step]

theorem apply_rotary_append (a b : QMat) (cos sin : ℕ → QVec) (off : ℕ) :
    apply_rotary_pos_emb (a ++ b) cos sin off =
      apply_rotary_pos_emb a cos sin off ++
        apply_rotary_pos_emb b cos sin (off + a.length) := by
  induction a generalizing off with
  | nil => simp [apply_rotary_pos_emb]
  | cons v rest ih =>
      have harith : off + 1 + rest.length = off + (rest.length + 1) := by omega
      show rot_step (cos off) (sin off) v ::
          apply_rotary_pos_emb (rest ++ b) cos sin (off + 1) =
        (rot_step (cos off) (sin off) v ::
            apply_rotary_pos_emb rest cos sin (off + 1)) ++
          apply_rotary_pos_emb b cos sin (off + (rest.length + 1))
      rw [List.cons_append, ih (off + 1), harith]

theorem drop_rot_take_append (cs sn v : QVec) (r : ℕ) :
    ((rot_step cs sn (v.take r)) ++ v.drop r).drop r = v.drop r := by
  rcases le_or_lt r v.length with h | h
  · have hl : (rot_step cs sn (v.take r)).length = r := by
      simp [rot_step_length, List.length_take, Nat.min_eq_left h]
    exact List.drop_left' hl
  · have hv : v.drop r = [] := List.drop_eq_nil_of_le (le_of_lt h)
    have hl : (rot_step cs sn (v.take r)).length ≤ r := by
      simp only [rot_step_length, List.length_take]
      omega
    simp [hv, List.drop_eq_nil_of_le hl]

theorem rotary_partial_drop (cos sin : ℕ → QVec) (r : ℕ) (q : QMat) (off : ℕ) :
    (List.zipWith (· ++ ·)
        (apply_rotary_pos_emb (q.map (fun v => v.take r)) cos sin off)
        (q.map (fun v => v.drop r))).map (fun v => v.drop r) =
      q.map (fun v => v.drop r) := by
  induction q generalizing off with
  | nil => rfl
  | cons v rest ih =>
      simp only [List.map_cons, apply_rotary_pos_emb, List.zipWith_cons_cons]
      rw [drop_rot_take_append, ih]

theorem unpack_attn_false_stored (o : ParallelAttention.AttnOutput)
    (st : Option (Tensor × Tensor)) (u : QMat × Option (Tensor × Tensor))
    (h : ParallelTransformerLayer.unpack_attn false o st = .ok u) : u.2 = st := by
  cases o with
  | plain out =>
      simp [ParallelTransformerLayer.unpack_attn] at h
      rw [← h]
  | withPresent out p =>
      simp [ParallelTransformerLayer.unpack_attn] at h

theorem layer_stored_unchanged (cfgL : ParallelTransformerLayer.Cfg)
    (extL : ParallelTransformerLayer.Ext) (x : QMat) (am ehs eam : Option QMat)
    (lpa slp : Option (Tensor × Tensor)) (h : cfgL.use_cache = false)
    (r : QMat × Option (Tensor × Tensor))
    (hr : ParallelTransformerLayer.forward cfgL extL x am ehs eam lpa slp = .ok r) :
    r.2 = slp := by
  unfold ParallelTransformerLayer.forward at hr
  rw [h] at hr
  dsimp only [] at hr
  repeat' split at hr
  all_goals try exact Except.noConfusion hr
  all_goals injection hr with h2
  all_goals subst h2
  all_goals dsimp only []
  all_goals solve_by_elim [unpack_attn_false_stored, Eq.trans]

/-! ## Claims -/

/-- C1: with the GPT-J-style residual topology, every sublayer reads a
normalization of the original input `x` (self-attention from `ln1(x)`,
cross-attention from `ln1.5(x)`, the MLP from `ln2(x)` — never another
sublayer's output), and the layer output is `x` plus one single
partition-reduce applied to the summed sublayer outputs. -/
theorem gptj_parallel_residual (base : ParallelAttention.Cfg)
    (lt : LayerType) (arch : ModelArch) (ext : ParallelTransformerLayer.Ext)
    (x : QMat) (am : Option QMat) (e : QMat) (eam : Option QMat)
    (lpa slp : Option (Tensor × Tensor)) :
    (let cfg : ParallelTransformerLayer.Cfg :=
       { attnCfg := base, gpt_j_residual := true, use_cache := false,
         layer_type := lt, model_arch := arch }
     let lp : Option (Tensor × Tensor) :=
       match lpa with | some p => some p | none => slp
     let selfP := ParallelAttention.self_forward
       (ParallelTransformerLayer.selfAttnCfg cfg) ext.attnExt
       (ext.input_layernorm x) am lp
     let selfTerm := matAdd selfP.1.outSeq (expand_bias selfP.2 selfP.1.outSeq)
     let crossP := ParallelAttention.cross_forward
       (ParallelTransformerLayer.crossAttnCfg cfg) ext.crossExt
       (ext.post_attention_layernorm x) e eam lp
     let crossTerm := matAdd selfTerm
       (matAdd crossP.1.outSeq (expand_bias crossP.2 crossP.1.outSeq))
     let mlpC := ext.mlp (ext.post_cross_attention_layernorm x)
     let mlpN := ext.mlp (ext.post_attention_layernorm x)
     ParallelTransformerLayer.forward cfg ext x am (some e) eam lpa slp =
       .ok (matAdd x (ext.reduce
         (if ParallelTransformerLayer.do_crossattn cfg then
            matAdd crossTerm (matAdd mlpC.1 (expand_bias mlpC.2 mlpC.1))
          else
            matAdd selfTerm (matAdd mlpN.1 (expand_bias mlpN.2 mlpN.1)))), slp)) := by
  cases lt <;> cases arch <;> rfl

/-- C5 counterexample: in a `use_cache = false` call that explicitly
supplies a non-empty `layer_past`, `ParallelAttention.forward` still
concatenates the cached key/value into the attention inputs — the output
[[11]] reflects the cached key 2 and cached value 5, and differs from the
cache-free result [[1]] of the same call. -/
theorem cache_used_despite_use_cache_false :
    wCfg.use_cache = false ∧
    ParallelAttention.forward wCfg wExt [[1, 1, 1]] none none
        (some (⟨.fp32, [[2]]⟩, ⟨.fp32, [[5]]⟩)) = .ok (.plain [[11]], [0]) ∧
    ParallelAttention.forward wCfg wExt [[1, 1, 1]] none none none =
      .ok (.plain [[1]], [0]) ∧
    ([[11]] : QMat) ≠ [[1]] := by
  refine ⟨rfl, ?_, ?_, by norm_num⟩ <;>
    norm_num [ParallelAttention.forward, ParallelAttention.qkv_section,
      ParallelAttention.attn_core, ParallelAttention.rotary_section,
      ParallelAttention.cache_concat, ParallelAttention.attention,
      ParallelAttention.raw_attention_scores,
      ParallelAttention.biased_attention_scores, ParallelAttention.mask_slice,
      ParallelAttention.context_of, ParallelAttention.weightedSum,
      ParallelAttention.norm_factor, ParallelAttention.coeff,
      ParallelAttention.softmax_scale, ParallelAttention.pastNumel,
      ParallelAttention.sparse_attention, dot, scaleVec, vecAdd, matAdd,
      chunkOf, split_tensor_along_last_dim, cat0, type_as, wCfg, wExt,
      List.zipWithAll, show ¬(("learned" : String) = "alibi") by decide,
      show ¬(ModelArch.other = ModelArch.t5) by decide,
      show ¬(LayerType.encoder = LayerType.decoder) by decide]

/-- C5 (amended): the concatenation of cached key/value is governed by the
presence of a non-empty `layer_past` argument, not by the use-cache flag;
what does hold of `use_cache = false` calls is that no cache state persists
(the layer returns its stored `layer_past` unchanged and the attention
module produces no `present`), and the cache path is inactive whenever no
`layer_past` is supplied. -/
theorem cache_inactive_semantics (cfgL : ParallelTransformerLayer.Cfg)
    (extL : ParallelTransformerLayer.Ext) (x : QMat) (am ehs eam : Option QMat)
    (lpa slp : Option (Tensor × Tensor)) (h : cfgL.use_cache = false) :
    (∀ kt vt : Tensor, ParallelAttention.cache_concat none kt vt = (kt, vt)) ∧
    (∀ r, ParallelTransformerLayer.forward cfgL extL x am ehs eam lpa slp =
        .ok r → r.2 = slp) ∧
    (∀ (cfgA : ParallelAttention.Cfg) (extA : ParallelAttention.Ext)
        (hsA : QMat) (amA : Option QMat) (lp : Option (Tensor × Tensor))
        (r : ParallelAttention.AttnOutput × QVec),
      cfgA.use_cache = false →
      ParallelAttention.forward cfgA extA hsA amA none lp = .ok r →
      ∃ o, r.1 = .plain o) := by
  refine ⟨fun kt vt => rfl,
    fun r hr => layer_stored_unchanged cfgL extL x am ehs eam lpa slp h r hr,
    ?_⟩
  intro cfgA extA hsA amA lp r hA hr
  unfold ParallelAttention.forward at hr
  split at hr
  · exact Except.noConfusion hr
  · injection hr with h2
    subst h2
    simp [ParallelAttention.attn_core, hA]

/-- C5 witness. -/
theorem cache_inactive_semantics_witness :
    wLayerCfg.use_cache = false ∧
    (ParallelAttention.cache_concat none ⟨.fp32, [[1]]⟩ ⟨.fp32, [[2]]⟩ =
       (⟨.fp32, [[1]]⟩, ⟨.fp32, [[2]]⟩) ∧
     (([[4, 2, 2]], none) : QMat × Option (Tensor × Tensor)).2 = none ∧
     ∃ o, ((ParallelAttention.AttnOutput.plain [[1]], [0]) :
        ParallelAttention.AttnOutput × QVec).1 = .plain o) := by
  have h := cache_inactive_semantics wLayerCfg wLayerExt [[1, 1, 1]] none none
    none none none rfl
  refine ⟨rfl, h.1 _ _, h.2.1 ([[4, 2, 2]], none) ?_,
    h.2.2 wCfg wExt [[1, 1, 1]] none none (.plain [[1]], [0]) rfl ?_⟩ <;>
    norm_num [ParallelTransformerLayer.forward,
      ParallelTransformerLayer.unpack_attn, ParallelTransformerLayer.selfAttnCfg,
      ParallelTransformerLayer.crossAttnCfg, ParallelTransformerLayer.do_crossattn,
      bias_dropout_add, expand_bias, wLayerCfg, wLayerExt,
      ParallelAttention.forward, ParallelAttention.qkv_section,
      ParallelAttention.attn_core, ParallelAttention.rotary_section,
      ParallelAttention.cache_concat, ParallelAttention.attention,
      ParallelAttention.raw_attention_scores,
      ParallelAttention.biased_attention_scores, ParallelAttention.mask_slice,
      ParallelAttention.context_of, ParallelAttention.weightedSum,
      ParallelAttention.norm_factor, ParallelAttention.coeff,
      ParallelAttention.softmax_scale, ParallelAttention.pastNumel,
      ParallelAttention.sparse_attention, dot, scaleVec, vecAdd, matAdd,
      chunkOf, split_tensor_along_last_dim, cat0, type_as, wCfg, wExt,
      List.zipWithAll, show ¬(("learned" : String) = "alibi") by decide,
      show ¬(ModelArch.other = ModelArch.t5) by decide,
      show ¬(LayerType.encoder = LayerType.decoder) by decide]

/-- C2: in `ParallelAttention.forward`, with a non-empty `layer_past` the
rotary offset is the cached prefix length `layer_past[0].shape[0]` and the
cos/sin table length is the new key length plus that offset; and rotating a
full sequence and taking the last position equals rotating that single
token with `offset = N - 1`. -/
theorem rotary_offset_equivalence (cos sin : ℕ → QVec) (ys : QMat) (v : QVec)
    (pk pv : Tensor) (newKey : QMat)
    (h : 0 < ParallelAttention.pastNumel (pk, pv)) :
    ParallelAttention.rotary_offset (some (pk, pv)) = pk.data.length ∧
    ParallelAttention.rotary_seq_len newKey (some (pk, pv)) =
      newKey.length + pk.data.length ∧
    (apply_rotary_pos_emb (ys ++ [v]) cos sin 0).getLast? =
      some (rot_step (cos ys.length) (sin ys.length) v) ∧
    apply_rotary_pos_emb [v] cos sin ((ys ++ [v]).length - 1) =
      [rot_step (cos ys.length) (sin ys.length) v] := by
  refine ⟨?_, ?_, ?_, ?_⟩
  · simp [ParallelAttention.rotary_offset, h]
  · simp [ParallelAttention.rotary_seq_len, ParallelAttention.rotary_offset, h]
  · rw [apply_rotary_append]
    simp [apply_rotary_pos_emb, List.getLast?_concat]
  · simp [apply_rotary_pos_emb, List.length_append]

/-- C2 witness. -/
theorem rotary_offset_equivalence_witness :
    0 < ParallelAttention.pastNumel (⟨.fp32, [[2]]⟩, ⟨.fp32, [[3]]⟩) ∧
    (ParallelAttention.rotary_offset (some (⟨.fp32, [[2]]⟩, ⟨.fp32, [[3]]⟩)) = 1 ∧
     ParallelAttention.rotary_seq_len [[7], [8]]
       (some (⟨.fp32, [[2]]⟩, ⟨.fp32, [[3]]⟩)) = 2 + 1 ∧
     (apply_rotary_pos_emb ([[5]] ++ [[6]]) (fun n => [(n : ℚ)]) (fun _ => [0])
        0).getLast? = some (rot_step [(1 : ℚ)] [0] [6]) ∧
     apply_rotary_pos_emb [[6]] (fun n => [(n : ℚ)]) (fun _ => [0])
       (([[5]] ++ [[6]] : QMat).length - 1) = [rot_step [(1 : ℚ)] [0] [6]]) :=
  ⟨by decide,
   rotary_offset_equivalence (fun n => [(n : ℚ)]) (fun _ => [0]) [[5]] [6]
     ⟨.fp32, [[2]]⟩ ⟨.fp32, [[3]]⟩ [[7], [8]] (by decide)⟩

/-- C3: with a rotary fraction strictly below 1, the forward pass rotates
only the leading `rotary_ndims = int(head_dim * fraction)` dimensions of
query and key; the trailing dimensions of the rotary section's result equal
the trailing dimensions of its input. -/
theorem partial_rotary_pass_through (base : ParallelAttention.Cfg)
    (ext : ParallelAttention.Ext) (q k : QMat)
    (lp : Option (Tensor × Tensor)) (pct : ℚ) (hd : ℕ) (hpct : pct < 1) :
    ParallelAttention.rotary_ndims hd pct = some (Int.toNat ⌊(hd : ℚ) * pct⌋) ∧
    ((ParallelAttention.rotary_section
        { base with rotary := true, rotary_pct := pct, head_dim := hd }
        ext q k lp).1).map (fun v => v.drop (Int.toNat ⌊(hd : ℚ) * pct⌋)) =
      q.map (fun v => v.drop (Int.toNat ⌊(hd : ℚ) * pct⌋)) ∧
    ((ParallelAttention.rotary_section
        { base with rotary := true, rotary_pct := pct, head_dim := hd }
        ext q k lp).2).map (fun v => v.drop (Int.toNat ⌊(hd : ℚ) * pct⌋)) =
      k.map (fun v => v.drop (Int.toNat ⌊(hd : ℚ) * pct⌋)) := by
  have hne : pct ≠ 1 := ne_of_lt hpct
  have hrn : ParallelAttention.rotary_ndims hd pct =
      some (Int.toNat ⌊(hd : ℚ) * pct⌋) := by
    simp [ParallelAttention.rotary_ndims, hne]
  refine ⟨hrn, ?_, ?_⟩
  · simp only [ParallelAttention.rotary_section, hrn]
    exact rotary_partial_drop _ _ _ q _
  · simp only [ParallelAttention.rotary_section, hrn]
    exact rotary_partial_drop _ _ _ k _

/-- C3 witness (head dim 4, fraction 1/2: dimensions 2 and 3 untouched). -/
theorem partial_rotary_pass_through_witness :
    ((1 : ℚ) / 2 < 1) ∧
    (ParallelAttention.rotary_ndims 4 (1 / 2) =
       some (Int.toNat ⌊(4 : ℚ) * (1 / 2)⌋) ∧
     ((ParallelAttention.rotary_section
         { wCfg with rotary := true, rotary_pct := 1 / 2, head_dim := 4 }
         wExt [[1, 2, 3, 4]] [[5, 6, 7, 8]] none).1).map
        (fun v => v.drop (Int.toNat ⌊(4 : ℚ) * (1 / 2)⌋)) =
      ([[1, 2, 3, 4]] : QMat).map
        (fun v => v.drop (Int.toNat ⌊(4 : ℚ) * (1 / 2)⌋)) ∧
     ((ParallelAttention.rotary_section
         { wCfg with rotary := true, rotary_pct := 1 / 2, head_dim := 4 }
         wExt [[1, 2, 3, 4]] [[5, 6, 7, 8]] none).2).map
        (fun v => v.drop (Int.toNat ⌊(4 : ℚ) * (1 / 2)⌋)) =
      ([[5, 6, 7, 8]] : QMat).map
        (fun v => v.drop (Int.toNat ⌊(4 : ℚ) * (1 / 2)⌋))) :=
  ⟨by norm_num,
   partial_rotary_pass_through wCfg wExt [[1, 2, 3, 4]] [[5, 6, 7, 8]] none
     (1 / 2) 4 (by norm_num)⟩

/-- C6: at most one positional strategy contributes an additive score bias
per call: under the configured exclusivity a rotary layer's bias stage
leaves the scores unchanged, and the rpe and alibi biases are never both
added in the same call. -/
theorem single_positional_bias (cfg : ParallelAttention.Cfg)
    (ext : ParallelAttention.Ext) (scores : QMat) (sq sk : ℕ)
    (hv : validPosConfig cfg ext) :
    (cfg.rotary = true →
      ParallelAttention.biased_attention_scores cfg ext scores sq sk = scores) ∧
    (ParallelAttention.biased_attention_scores cfg ext scores sq sk = scores ∨
     (∃ f, ext.rpe = some f ∧ cfg.pos_emb ≠ "alibi" ∧
        ParallelAttention.biased_attention_scores cfg ext scores sq sk =
          matAdd scores (f sq sk)) ∨
     (ext.rpe = none ∧ cfg.pos_emb = "alibi" ∧
        ParallelAttention.biased_attention_scores cfg ext scores sq sk =
          matAdd scores (ext.alibiBias sq sk))) := by
  obtain ⟨hrot, hboth⟩ := hv
  constructor
  · intro hr
    obtain ⟨hna, hrn⟩ := hrot hr
    simp [ParallelAttention.biased_attention_scores, hrn, hna]
  · rcases hrpe : ext.rpe with _ | f
    · by_cases halibi : cfg.pos_emb = "alibi"
      · exact Or.inr (Or.inr ⟨rfl, halibi,
          by simp [ParallelAttention.biased_attention_scores, hrpe, halibi]⟩)
      · exact Or.inl
          (by simp [ParallelAttention.biased_attention_scores, hrpe, halibi])
    · have halibi : cfg.pos_emb ≠ "alibi" := by
        intro ha
        exact hboth ⟨ha, by simp [hrpe]⟩
      exact Or.inr (Or.inl ⟨f, rfl, halibi,
        by simp [ParallelAttention.biased_attention_scores, hrpe, halibi]⟩)

/-- C6 witness. -/
theorem single_positional_bias_witness :
    validPosConfig wCfg wExt ∧
    ((wCfg.rotary = true →
       ParallelAttention.biased_attention_scores wCfg wExt [[3]] 1 1 = [[3]]) ∧
     (ParallelAttention.biased_attention_scores wCfg wExt [[3]] 1 1 = [[3]] ∨
      (∃ f, wExt.rpe = some f ∧ wCfg.pos_emb ≠ "alibi" ∧
         ParallelAttention.biased_attention_scores wCfg wExt [[3]] 1 1 =
           matAdd [[3]] (f 1 1)) ∨
      (wExt.rpe = none ∧ wCfg.pos_emb = "alibi" ∧
         ParallelAttention.biased_attention_scores wCfg wExt [[3]] 1 1 =
           matAdd [[3]] (wExt.alibiBias 1 1)))) :=
  have hv : validPosConfig wCfg wExt :=
    ⟨fun h => by simp [wCfg] at h, fun h => by simp [wExt] at h⟩
  ⟨hv, single_positional_bias wCfg wExt [[3]] 1 1 hv⟩

/-- Entries of the raw scores are the dot products divided by the norm
factor. -/
theorem raw_scores_div (s : ℚ) (q k : QMat) :
    ParallelAttention.raw_attention_scores s q k =
      q.map (fun qi => k.map (fun kj => dot qi kj / s)) := by
  have h : (fun qi => k.map (fun kj => 1 / s * dot qi kj)) =
      (fun qi => k.map (fun kj => dot qi kj / s)) := by
    funext qi
    have h2 : (fun kj => 1 / s * dot qi kj) = (fun kj => dot qi kj / s) := by
      funext kj
      rw [one_div, inv_mul_eq_div]
    rw [h2]
  unfold ParallelAttention.raw_attention_scores
  rw [h]

/-- Scaling the raw scores back by a nonzero coefficient removes it from
the norm factor. -/
theorem raw_scores_smul (c s : ℚ) (hc : c ≠ 0) (q k : QMat) :
    matSmul c (ParallelAttention.raw_attention_scores (s * c) q k) =
      ParallelAttention.raw_attention_scores s q k := by
  unfold matSmul ParallelAttention.raw_attention_scores
  rw [List.map_map]
  have h : ((fun row => row.map fun x => c * x) ∘
        fun qi => k.map fun kj => 1 / (s * c) * dot qi kj) =
      fun qi => k.map fun kj => 1 / s * dot qi kj := by
    funext qi
    simp only [Function.comp, List.map_map]
    have h2 : ((fun x => c * x) ∘ fun kj => 1 / (s * c) * dot qi kj) =
        fun kj => 1 / s * dot qi kj := by
      funext kj
      simp only [Function.comp]
      rw [one_div, one_div, mul_inv_rev,
        show c * (c⁻¹ * s⁻¹ * dot qi kj) = c * c⁻¹ * (s⁻¹ * dot qi kj) by ring,
        mul_inv_cancel₀ hc, one_mul]
    rw [h2]
  rw [h]

/-- C7: the dense raw score divides the query-key dot product by
sqrt(head-dim); with query/key-layer scaling enabled the norm factor is
additionally multiplied by max(1, layer_number), the same coefficient is
handed to the softmax stage, and multiplying the scores back by it
recovers the unscaled q·k / sqrt(head-dim). -/
theorem qk_layer_scaling (cfg0 : ParallelAttention.Cfg) (ln : ℕ) (s : ℚ)
    (q k : QMat) :
    (ParallelAttention.norm_factor s
        { cfg0 with apply_query_key_layer_scaling := true, layer_number := ln } =
      s * ((max 1 ln : ℕ) : ℚ) ∧
     ParallelAttention.softmax_scale
        { cfg0 with apply_query_key_layer_scaling := true, layer_number := ln } =
      some (max 1 ln) ∧
     matSmul ((max 1 ln : ℕ) : ℚ)
        (ParallelAttention.raw_attention_scores
          (ParallelAttention.norm_factor s
            { cfg0 with apply_query_key_layer_scaling := true, layer_number := ln })
          q k) =
      q.map (fun qi => k.map (fun kj => dot qi kj / s))) ∧
    (ParallelAttention.norm_factor s
        { cfg0 with apply_query_key_layer_scaling := false } = s ∧
     ParallelAttention.softmax_scale
        { cfg0 with apply_query_key_layer_scaling := false } = none ∧
     ParallelAttention.raw_attention_scores
        (ParallelAttention.norm_factor s
          { cfg0 with apply_query_key_layer_scaling := false }) q k =
      q.map (fun qi => k.map (fun kj => dot qi kj / s))) := by
  have hnfT : ParallelAttention.norm_factor s
      { cfg0 with apply_query_key_layer_scaling := true, layer_number := ln } =
      s * ((max 1 ln : ℕ) : ℚ) := by
    simp [ParallelAttention.norm_factor, ParallelAttention.coeff]
  have hnfF : ParallelAttention.norm_factor s
      { cfg0 with apply_query_key_layer_scaling := false } = s := by
    simp [ParallelAttention.norm_factor, ParallelAttention.coeff]
  have hc : ((max 1 ln : ℕ) : ℚ) ≠ 0 :=
    Nat.cast_ne_zero.mpr (Nat.one_le_iff_ne_zero.mp (le_max_left 1 ln))
  refine ⟨⟨hnfT, ?_, ?_⟩, hnfF, ?_, ?_⟩
  · simp [ParallelAttention.softmax_scale, ParallelAttention.coeff]
  · rw [hnfT, raw_scores_smul _ _ hc, raw_scores_div]
  · simp [ParallelAttention.softmax_scale, ParallelAttention.coeff]
  · rw [hnfF, raw_scores_div]

/-- C4: merging a non-empty cache concatenates the cached key (value)
before the new one along the sequence axis, after casting the cached
tensor to the new tensor's numeric type; the effective length is the sum
of cached and new lengths. -/
theorem kv_cache_append (pk pv knew vnew : Tensor)
    (h : 0 < ParallelAttention.pastNumel (pk, pv)) :
    ParallelAttention.cache_concat (some (pk, pv)) knew vnew =
      ({ dtype := knew.dtype, data := pk.data ++ knew.data },
       { dtype := vnew.dtype, data := pv.data ++ vnew.data }) ∧
    ((ParallelAttention.cache_concat (some (pk, pv)) knew vnew).1).data.length =
      pk.data.length + knew.data.length ∧
    ((ParallelAttention.cache_concat (some (pk, pv)) knew vnew).2).data.length =
      pv.data.length + vnew.data.length := by
  refine ⟨?_, ?_, ?_⟩ <;>
    simp [ParallelAttention.cache_concat, h, cat0, type_as]

/-- C8: cross-attention without encoder hidden states fails fatally (a
contract violation, not a recoverable condition); with encoder states, the
query is projected from the decoder hidden state while key and value come
from the joint 2x-hidden encoder projection, split into two parts. -/
theorem cross_attention_contract (base : ParallelAttention.Cfg)
    (ext : ParallelAttention.Ext) (hs : QMat) (am : Option QMat)
    (lp : Option (Tensor × Tensor)) (hsz : ℕ) :
    ParallelAttention.forward { base with is_cross_attention := true }
        ext hs am none lp = .error .missingEncoderStates ∧
    (∀ enc : QMat,
      ParallelAttention.qkv_section { base with is_cross_attention := true }
          ext hs (some enc) =
        .ok (hs.map ext.qProj,
             (enc.map ext.kvProj).map (chunkOf 2 0),
             (enc.map ext.kvProj).map (chunkOf 2 1))) ∧
    (∀ enc : QMat,
      ParallelAttention.forward { base with is_cross_attention := true }
          ext hs am (some enc) lp =
        .ok (ParallelAttention.cross_forward
              { base with is_cross_attention := true } ext hs enc am lp)) ∧
    ParallelAttention.key_value_output_size hsz = 2 * hsz :=
  ⟨rfl, fun _ => rfl, fun _ => rfl, rfl⟩

/-- C9: the pipeline-stage adapter accepts exactly the tuple arity of its
architecture variant (5 for a T5 encoder layer, 4 for a T5 decoder layer,
2 otherwise) and fails fatally otherwise; a matching tuple is unpacked,
delegated to the layer, and repacked with the mask tensors unchanged. -/
theorem pipe_tuple_contract {T : Type}
    (superF : T → T → Option T → Option T → T)
    (mism : T → T → Bool) (refit : T → T → T) :
    (∀ (arch : ModelArch) (lt : LayerType) (args : List T),
      (ParallelTransformerLayerPipe.forward arch lt superF mism refit args).isOk =
        (args.length == ParallelTransformerLayerPipe.expected_args arch lt)) ∧
    (∀ a b c d e : T,
      ParallelTransformerLayerPipe.forward .t5 .encoder superF mism refit
          [a, b, c, d, e] =
        .ok [superF a d none none,
             if mism b a then refit b a else b,
             if mism b a then refit c a else c, d, e]) ∧
    (∀ a b c d : T,
      ParallelTransformerLayerPipe.forward .t5 .decoder superF mism refit
          [a, b, c, d] =
        .ok [superF a d (some b) (some c), b, c, d]) ∧
    (∀ (lt : LayerType) (a b : T),
      ParallelTransformerLayerPipe.forward .other lt superF mism refit [a, b] =
        .ok [superF a b none none, b]) := by
  refine ⟨?_, ?_, ?_, ?_⟩
  · intro arch lt args
    cases arch <;> cases lt <;>
      rcases args with _ | ⟨a, _ | ⟨b, _ | ⟨c, _ | ⟨d, _ | ⟨e, _ | rest⟩⟩⟩⟩⟩ <;>
      simp [ParallelTransformerLayerPipe.forward,
        ParallelTransformerLayerPipe.expected_args, Except.isOk, Except.toBool,
        beq_eq_false_iff_ne]
  · intro a b c d e
    by_cases hm : mism b a = true <;>
      simp [ParallelTransformerLayerPipe.forward, hm]
  · intro a b c d
    rfl
  · intro lt a b
    cases lt <;> rfl

/-- C10: the first component of `ParallelAttention.forward`'s result is the
two-element `[output, present]` when `use_cache` is set — `present` being
the stacked effective (cache-merged) key/value — and the bare output tensor
otherwise; the layer-side unpacking differs accordingly. -/
theorem use_cache_return_shape (base : ParallelAttention.Cfg)
    (ext : ParallelAttention.Ext) (hs : QMat) (am : Option QMat)
    (lp : Option (Tensor × Tensor)) :
    (ParallelAttention.forward
        { base with is_cross_attention := false, use_cache := true }
        ext hs am none lp =
      .ok (.withPresent
            (ParallelAttention.self_forward
              { base with is_cross_attention := false, use_cache := true }
              ext hs am lp).1.outSeq
            (ParallelAttention.cache_concat lp
              { dtype := base.params_dtype,
                data := (ParallelAttention.rotary_section
                  { base with is_cross_attention := false, use_cache := true }
                  ext ((hs.map ext.qkvProj).map (chunkOf 3 0))
                  ((hs.map ext.qkvProj).map (chunkOf 3 1)) lp).2 }
              { dtype := base.params_dtype,
                data := (hs.map ext.qkvProj).map (chunkOf 3 2) }),
           (ParallelAttention.self_forward
              { base with is_cross_attention := false, use_cache := true }
              ext hs am lp).2)) ∧
    (ParallelAttention.forward
        { base with is_cross_attention := false, use_cache := false }
        ext hs am none lp =
      .ok (.plain
            (ParallelAttention.self_forward
              { base with is_cross_attention := false, use_cache := false }
              ext hs am lp).1.outSeq,
           (ParallelAttention.self_forward
              { base with is_cross_attention := false, use_cache := false }
              ext hs am lp).2)) ∧
    (∀ (o : QMat) (p : Tensor × Tensor) (st : Option (Tensor × Tensor)),
      ParallelTransformerLayer.unpack_attn true (.withPresent o p) st =
        .ok (o, some p)) ∧
    (∀ (o : QMat) (st : Option (Tensor × Tensor)),
      ParallelTransformerLayer.unpack_attn false (.plain o) st = .ok (o, st)) :=
  ⟨rfl, rfl, fun _ _ _ => rfl, fun _ _ => rfl⟩

/-- C4 witness (cached fp16 tensors, new fp32 tensors). -/
theorem kv_cache_append_witness :
    0 < ParallelAttention.pastNumel (⟨.fp16, [[1]]⟩, ⟨.fp16, [[2]]⟩) ∧
    (ParallelAttention.cache_concat (some (⟨.fp16, [[1]]⟩, ⟨.fp16, [[2]]⟩))
        ⟨.fp32, [[3]]⟩ ⟨.fp32, [[4]]⟩ =
      ({ dtype := DType.fp32, data := [[1]] ++ [[3]] },
       { dtype := DType.fp32, data := [[2]] ++ [[4]] }) ∧
     ((ParallelAttention.cache_concat (some (⟨.fp16, [[1]]⟩, ⟨.fp16, [[2]]⟩))
        ⟨.fp32, [[3]]⟩ ⟨.fp32, [[4]]⟩).1).data.length = 1 + 1 ∧
     ((ParallelAttention.cache_concat (some (⟨.fp16, [[1]]⟩, ⟨.fp16, [[2]]⟩))
        ⟨.fp32, [[3]]⟩ ⟨.fp32, [[4]]⟩).2).data.length = 1 + 1) :=
  ⟨by decide,
   kv_cache_append ⟨.fp16, [[1]]⟩ ⟨.fp16, [[2]]⟩ ⟨.fp32, [[3]]⟩ ⟨.fp32, [[4]]⟩
     (by decide)⟩

end GPTNeoX
